import Mathlib

/-!
Verification of the binary-block decode step and the connectivity check of
`Keysight_Oscope.py` (class `Keysight_DSOX1204G`).

Bytes are modelled as `List Nat` (one entry per byte value).  The decode
step embedded here is the body of `saveImage`, lines 221-226:

    if data.startswith(b'#'):
        header_length = int(data[1:2])
        data_length = int(data[2:2 + header_length])
        binary_data = data[2 + header_length:2 + header_length + data_length]
    else:
        binary_data = data

Python's `int()` applied to a bytes object strips ASCII whitespace on both
ends, accepts an optional sign, and then requires a nonempty digit string in
which single underscores may separate digits; on anything else it raises
`ValueError`.  Python's slice `data[a:b]` adds `len(data)` to a negative
index, clamps to `[0, len]`, and returns the (possibly empty) contiguous
segment.  Both are modelled faithfully below.
-/

/-- Whether a byte value is an ASCII decimal digit `0`-`9`. -/
def isDigit (c : Nat) : Bool := decide (48 ≤ c ∧ c ≤ 57)

/-- Whether a byte value is ASCII whitespace as stripped by Python's `int()`
(space, tab, newline, carriage return, vertical tab, form feed). -/
def isPySpace (c : Nat) : Bool :=
  decide (c = 32 ∨ c = 9 ∨ c = 10 ∨ c = 13 ∨ c = 11 ∨ c = 12)

/-- Digit-string scanner of Python's `int()`, after the first digit has been
consumed into the accumulator: digits, with single underscores allowed only
between two digits. -/
def pyIntDigits (l : List Nat) (acc : Nat) : Option Nat :=
  match l with
  | [] => some acc
  | c :: rest =>
    if c = 95 then
      match rest with
      | [] => none
      | d :: rest2 =>
        if isDigit d then pyIntDigits rest2 (acc * 10 + (d - 48)) else none
    else if isDigit c then pyIntDigits rest (acc * 10 + (c - 48))
    else none

/-- Unsigned part of Python's `int()`: a nonempty digit string (with optional
internal underscores), which must start with a digit. -/
def pyIntUnsigned (l : List Nat) : Option Nat :=
  match l with
  | [] => none
  | c :: rest => if isDigit c then pyIntDigits rest (c - 48) else none

/-- Python's `int()` applied to a bytes object: strip ASCII whitespace from
both ends, then an optional `+`/`-` sign followed by the digit string.
Returns `none` where Python raises `ValueError`. -/
def pyInt (l : List Nat) : Option Int :=
  let l1 := l.dropWhile isPySpace
  let l2 := (l1.reverse.dropWhile isPySpace).reverse
  match l2 with
  | [] => none
  | c :: rest =>
    if c = 43 then (pyIntUnsigned rest).map (fun n => (n : Int))
    else if c = 45 then (pyIntUnsigned rest).map (fun n => -(n : Int))
    else (pyIntUnsigned (c :: rest)).map (fun n => (n : Int))

/-- Python index adjustment for a slice bound: a negative index counts from
the end; the result is clamped to `[0, n]`. -/
def pyClamp (n : Nat) (i : Int) : Nat :=
  let j : Int := if i < 0 then i + n else i
  if j < 0 then 0 else min j.toNat n

/-- Python slice `l[a:b]`: the contiguous segment between the two adjusted
bounds (empty when they cross). -/
def pySlice (l : List Nat) (a b : Int) : List Nat :=
  (l.take (pyClamp l.length b)).drop (pyClamp l.length a)

/-- Python `data.startswith(b'#')`: nonempty and first byte `0x23`. -/
def startsWithHash (l : List Nat) : Bool :=
  match l with
  | [] => false
  | c :: _ => decide (c = 35)

/-- Error raised by the decode step; `int()` on an unparseable byte string
raises Python's built-in `ValueError` (the code defines no other error). -/
inductive PyError where
  | valueError : PyError
deriving DecidableEq, Repr

/-- The decode step of `saveImage` (lines 221-226 of `Keysight_Oscope.py`):
on a `#` header read the digit count from `data[1:2]`, the payload length
from `data[2:2+header_length]`, and return the corresponding slice;
otherwise return the input unchanged.  `Except.error` marks the points where
`int()` raises. -/
def decode (data : List Nat) : Except PyError (List Nat) :=
  if startsWithHash data then
    match pyInt (pySlice data 1 2) with
    | none => Except.error PyError.valueError
    | some header_length =>
      match pyInt (pySlice data 2 (2 + header_length)) with
      | none => Except.error PyError.valueError
      | some data_length =>
        Except.ok (pySlice data (2 + header_length) (2 + header_length + data_length))
  else Except.ok data

/-- Numeric value of a big-endian list of ASCII digit bytes. -/
def digitsVal (l : List Nat) : Nat :=
  l.foldl (fun a c => a * 10 + (c - 48)) 0

/-- Modelled from the spec: the definite-length block encoder used by the
round-trip property (the repository contains no encoder).  It prepends
`b'#'`, the digit count of `len(P)` written as decimal digits, and `len(P)`
itself written as exactly that many decimal digits. -/
def encodeBlock (P : List Nat) : List Nat :=
  let lenDigits := (Nat.toDigits 10 P.length).map Char.toNat
  35 :: (((Nat.toDigits 10 lenDigits.length).map Char.toNat) ++ (lenDigits ++ P))

/-- The instrument identity string checked by `IDNCheck`
(line 38 of `Keysight_Oscope.py`). -/
def IDN_string : String :=
  "KEYSIGHT TECHNOLOGIES,DSOX1204G,CN60167508,02.10.2019111333\n"

/-- A concrete transport-level error, standing for any exception the
underlying instrument session can raise during `query`. -/
inductive VisaError where
  | ioError : VisaError
deriving DecidableEq, Repr

/-- The `IDNCheck` method (lines 50-64 of `Keysight_Oscope.py`), with the
outcome of `self.OS.query('*IDN?')` passed explicitly: on a reply equal to
the stored identity it returns `1`, on any other reply `0`, and the bare
`except:` turns every raised transport error into `0` as well. -/
def IDNCheck {ε : Type} (queryReply : Except ε String) : Nat :=
  match queryReply with
  | Except.ok s => if s = IDN_string then 1 else 0
  | Except.error _ => 0

deriving instance DecidableEq for Except

-- Sanity examples (concrete evaluations of the embedding).
example : decode [35, 49, 53, 104, 101, 108, 108, 111] =
    Except.ok [104, 101, 108, 108, 111] := by decide
example : decode [] = Except.ok [] := by decide
example : decode [35] = Except.error PyError.valueError := by decide
example : decode [35, 65, 49, 50, 51] = Except.error PyError.valueError := by decide
example : decode [35, 50, 43, 53, 97, 98, 99, 100, 101] =
    Except.ok [97, 98, 99, 100, 101] := by decide
example : pyInt [43, 53] = some 5 := by decide
example : pyInt [49, 95, 48] = some 10 := by decide
example : pyInt [95, 49] = none := by decide
example : decode (encodeBlock [7, 8, 9]) = Except.ok [7, 8, 9] := by decide

/-! Helper lemmas about the Python `int()` model on pure digit strings. -/

lemma digit_not_space {c : Nat} (h : isDigit c = true) : isPySpace c = false := by
  simp only [isDigit, decide_eq_true_eq] at h
  simp only [isPySpace, decide_eq_false_iff_not]
  omega

lemma digit_ne_underscore {c : Nat} (h : isDigit c = true) : c ≠ 95 := by
  simp only [isDigit, decide_eq_true_eq] at h
  omega

lemma pyIntDigits_digits : ∀ (l : List Nat) (acc : Nat),
    (∀ c ∈ l, isDigit c = true) →
    pyIntDigits l acc = some (l.foldl (fun a c => a * 10 + (c - 48)) acc)
  | [], _, _ => rfl
  | c :: rest, acc, h => by
    have hc : isDigit c = true := h c (by simp)
    rw [pyIntDigits.eq_def]
    simp only [digit_ne_underscore hc, if_false, hc, if_true, List.foldl_cons]
    exact pyIntDigits_digits rest _ (fun d hd => h d (by simp [hd]))

lemma dropWhile_space_digits (l : List Nat) (h : ∀ c ∈ l, isDigit c = true) :
    l.dropWhile isPySpace = l := by
  cases l with
  | nil => rfl
  | cons c t =>
    rw [List.dropWhile_cons, digit_not_space (h c (by simp))]
    simp

lemma pyInt_digits (l : List Nat) (hne : l ≠ [])
    (h : ∀ c ∈ l, isDigit c = true) :
    pyInt l = some ((digitsVal l : Nat) : Int) := by
  rw [pyInt]
  have h1 : l.dropWhile isPySpace = l := dropWhile_space_digits l h
  have h2 : l.reverse.dropWhile isPySpace = l.reverse := by
    refine dropWhile_space_digits l.reverse (fun c hc => h c ?_)
    exact List.mem_reverse.mp hc
  rw [h1, h2, List.reverse_reverse]
  cases l with
  | nil => exact absurd rfl hne
  | cons c t =>
    have hc : isDigit c = true := h c (by simp)
    have hc' : 48 ≤ c ∧ c ≤ 57 := by simpa [isDigit] using hc
    have h43 : ¬ (c = 43) := by omega
    have h45 : ¬ (c = 45) := by omega
    simp only [h43, if_false, h45, pyIntUnsigned, hc, if_true]
    rw [pyIntDigits_digits t (c - 48) (fun d hd => h d (by simp [hd]))]
    simp [digitsVal]

/-! Helper lemmas about the Python slice model. -/

lemma take_min_drop_min (l : List Nat) (a b : Nat) :
    (l.take (min b l.length)).drop (min a l.length) = (l.drop a).take (b - a) := by
  rcases le_or_lt a l.length with ha | ha
  · rw [Nat.min_eq_left ha, List.drop_take]
    rcases le_or_lt b l.length with hb | hb
    · rw [Nat.min_eq_left hb]
    · rw [Nat.min_eq_right (Nat.le_of_lt hb)]
      have hlen : (l.drop a).length = l.length - a := List.length_drop a l
      rw [List.take_of_length_le (by omega), List.take_of_length_le (by omega)]
  · rw [Nat.min_eq_right (Nat.le_of_lt ha)]
    have h1 : List.drop l.length (List.take (min b l.length) l) = [] :=
      List.drop_eq_nil_of_le (by rw [List.length_take]; omega)
    have h2 : List.drop a l = [] := List.drop_eq_nil_of_le (by omega)
    rw [h1, h2, List.take_nil]

lemma pySlice_ofNat (l : List Nat) (a b : Nat) :
    pySlice l (a : Int) (b : Int) = (l.drop a).take (b - a) := by
  have hc : ∀ k : Nat, pyClamp l.length (k : Int) = min k l.length := by
    intro k
    have h0 : ¬ ((k : Int) < 0) := by omega
    simp only [pyClamp, if_neg h0]
    omega
  rw [pySlice, hc, hc, take_min_drop_min]

/-- Central computation lemma: on input `#` + digit byte `hb` + a run of
`hb - 48` ASCII digits `ld` + arbitrary `tail`, the decode step succeeds and
returns the first `digitsVal ld` bytes of `tail` (all of `tail` when fewer
are available, exactly the declared payload when enough are). -/
lemma decode_block (hb : Nat) (ld tail : List Nat)
    (h1 : isDigit hb = true) (h2 : 49 ≤ hb)
    (h3 : ∀ c ∈ ld, isDigit c = true)
    (h4 : ld.length = hb - 48) :
    decode (35 :: hb :: (ld ++ tail)) = Except.ok (tail.take (digitsVal ld)) := by
  have hbb : 48 ≤ hb ∧ hb ≤ 57 := by simpa [isDigit] using h1
  have hlen1 : 1 ≤ ld.length := by omega
  have hne : ld ≠ [] := by
    intro hn
    rw [hn] at hlen1
    simp at hlen1
  have hstart : startsWithHash (35 :: hb :: (ld ++ tail)) = true := rfl
  have e1 : pySlice (35 :: hb :: (ld ++ tail)) 1 2 = [hb] := by
    have h := pySlice_ofNat (35 :: hb :: (ld ++ tail)) 1 2
    push_cast at h
    rw [h]
    rfl
  have e2 : pyInt [hb] = some ((hb - 48 : Nat) : Int) := by
    have h := pyInt_digits [hb] (by simp) (by
      intro c hc
      simp only [List.mem_singleton] at hc
      rw [hc]
      exact h1)
    simpa [digitsVal] using h
  have e3 : pySlice (35 :: hb :: (ld ++ tail)) 2 (2 + ((hb - 48 : Nat) : Int)) = ld := by
    have h := pySlice_ofNat (35 :: hb :: (ld ++ tail)) 2 (2 + (hb - 48))
    push_cast at h
    rw [h]
    have hdrop : (35 :: hb :: (ld ++ tail)).drop 2 = ld ++ tail := rfl
    have hsub : 2 + (hb - 48) - 2 = ld.length := by omega
    rw [hdrop, hsub, List.take_left]
  have e4 : pyInt ld = some ((digitsVal ld : Nat) : Int) := pyInt_digits ld hne h3
  have e5 : pySlice (35 :: hb :: (ld ++ tail)) (2 + ((hb - 48 : Nat) : Int))
      (2 + ((hb - 48 : Nat) : Int) + ((digitsVal ld : Nat) : Int)) =
      tail.take (digitsVal ld) := by
    have h := pySlice_ofNat (35 :: hb :: (ld ++ tail)) (2 + (hb - 48))
      (2 + (hb - 48) + digitsVal ld)
    push_cast at h
    rw [h]
    have hsub : 2 + (hb - 48) + digitsVal ld - (2 + (hb - 48)) = digitsVal ld := by omega
    have hdrop : (35 :: hb :: (ld ++ tail)).drop (2 + (hb - 48)) = tail := by
      rw [show 2 + (hb - 48) = 2 + ld.length by omega, ← List.drop_drop]
      rw [show (35 :: hb :: (ld ++ tail)).drop 2 = ld ++ tail from rfl, List.drop_left]
    rw [hsub, hdrop]
  unfold decode
  rw [if_pos hstart]
  simp only [e1, e2, e3, e4, e5]

/-- Dropping the two marker bytes and the `hb - 48` digit bytes of a
block header leaves exactly the bytes that followed the header. -/
lemma drop_header (hb : Nat) (ld tail : List Nat) (h4 : ld.length = hb - 48) :
    (35 :: hb :: (ld ++ tail)).drop (2 + (hb - 48)) = tail := by
  rw [show 2 + (hb - 48) = 2 + ld.length by omega, ← List.drop_drop]
  rw [show (35 :: hb :: (ld ++ tail)).drop 2 = ld ++ tail from rfl, List.drop_left]

/-- A Python slice of a list is never longer than the list. -/
lemma pySlice_length_le (l : List Nat) (a b : Int) :
    (pySlice l a b).length ≤ l.length := by
  unfold pySlice
  rw [List.length_drop, List.length_take]
  omega

/-- Python's `int()` fails on any single byte that is not an ASCII digit
(whitespace strips to nothing, a lone sign has no digits, anything else is
rejected outright). -/
lemma pyInt_single_nondigit (c : Nat) (h : isDigit c = false) : pyInt [c] = none := by
  rw [pyInt]
  by_cases hs : isPySpace c = true
  · simp [List.dropWhile_cons, hs]
  · have hs' : isPySpace c = false := by simpa using hs
    simp [List.dropWhile_cons, hs', pyIntUnsigned, h]

/-- Encoding any payload whose length has the digit string `ld` (itself a
single-digit count `hb`) and decoding it returns the payload. -/
lemma decode_encodeBlock_of_digits (L hb : Nat) (ld : List Nat)
    (hld : (Nat.toDigits 10 L).map Char.toNat = ld)
    (hhb : (Nat.toDigits 10 ld.length).map Char.toNat = [hb])
    (h1 : isDigit hb = true) (h2 : 49 ≤ hb)
    (h3 : ∀ c ∈ ld, isDigit c = true)
    (h4 : ld.length = hb - 48)
    (h5 : digitsVal ld = L)
    (P : List Nat) (hP : P.length = L) :
    decode (encodeBlock P) = Except.ok P := by
  have henc : encodeBlock P = 35 :: hb :: (ld ++ P) := by
    simp only [encodeBlock]
    rw [hP, hld, hhb]
    rfl
  rw [henc, decode_block hb ld P h1 h2 h3 h4, h5, ← hP, List.take_length]

/-! Claim theorems. -/

/-- C1: for every well-formed binary block input
`b"#" + (one ASCII digit H, 1-9) + (exactly H ASCII decimal digits encoding L)
+ P` where `P` has exactly `L` bytes, the decode step returns `P`: it reads
`H` from the byte at index 1, `L` from the `H` digits at indices `2..2+H`,
and returns the slice `response[2+H : 2+H+L]`. -/
theorem decode_wellformed_returns_payload (hb : Nat) (ld P : List Nat)
    (h1 : isDigit hb = true) (h2 : 49 ≤ hb)
    (h3 : ∀ c ∈ ld, isDigit c = true)
    (h4 : ld.length = hb - 48)
    (h5 : P.length = digitsVal ld) :
    decode (35 :: hb :: (ld ++ P)) = Except.ok P := by
  rw [decode_block hb ld P h1 h2 h3 h4, ← h5, List.take_length]

/-- Witness for C1: the block `b"#15hello"` decodes to `b"hello"`. -/
theorem decode_wellformed_returns_payload_witness :
    decode (35 :: 49 :: ([53] ++ [104, 101, 108, 108, 111])) =
      Except.ok [104, 101, 108, 108, 111] :=
  decode_wellformed_returns_payload 49 [53] [104, 101, 108, 108, 111]
    (by decide) (by decide) (by decide) (by decide) (by decide)

/-- C2 counterexample: the input `b"#2+5abcde"` starts with `b"#"` and has a
non-digit byte `0x2B` (`+`) at index 2, where the first length digit is
expected, yet the decode step does not fail: Python's `int(b"+5")` accepts
the sign, and the decoder returns the five payload bytes. -/
theorem decode_plus_sign_counterexample :
    startsWithHash [35, 50, 43, 53, 97, 98, 99, 100, 101] = true ∧
    isDigit 43 = false ∧
    decode [35, 50, 43, 53, 97, 98, 99, 100, 101] =
      Except.ok [97, 98, 99, 100, 101] := by
  decide

/-- C2 (amended): for every input beginning with `b"#"` whose digit-count
byte at index 1 is not an ASCII digit, the decode step raises `ValueError`
(`int()` on an unparseable byte) rather than returning bytes; in the length
field Python's `int()` tolerates signs, whitespace, and underscores, so only
bytes it rejects raise there, and no `FormatError` class exists in the
code. -/
theorem decode_nondigit_count_raises (c : Nat) (t : List Nat)
    (h : isDigit c = false) :
    decode (35 :: c :: t) = Except.error PyError.valueError := by
  have hstart : startsWithHash (35 :: c :: t) = true := rfl
  have e1 : pySlice (35 :: c :: t) 1 2 = [c] := by
    have h' := pySlice_ofNat (35 :: c :: t) 1 2
    push_cast at h'
    rw [h']
    rfl
  unfold decode
  rw [if_pos hstart]
  simp only [e1, pyInt_single_nondigit c h]

/-- Witness for amended C2: `b"#A123"` (non-digit digit-count byte `A`)
raises `ValueError`. -/
theorem decode_nondigit_count_raises_witness :
    decode (35 :: 65 :: [49, 50, 51]) = Except.error PyError.valueError :=
  decode_nondigit_count_raises 65 [49, 50, 51] (by decide)

/-- C3: for every header-bearing input whose declared length exceeds the
number of bytes remaining after the header, the decode step returns exactly
the bytes available after the header, the truncated slice
`response[2+H : len(response)]`, without failing. -/
theorem decode_truncated_returns_available (hb : Nat) (ld tail : List Nat)
    (h1 : isDigit hb = true) (h2 : 49 ≤ hb)
    (h3 : ∀ c ∈ ld, isDigit c = true)
    (h4 : ld.length = hb - 48)
    (h5 : (35 :: hb :: (ld ++ tail)).length < 2 + (hb - 48) + digitsVal ld) :
    decode (35 :: hb :: (ld ++ tail)) =
      Except.ok ((35 :: hb :: (ld ++ tail)).drop (2 + (hb - 48))) := by
  have hlen : (35 :: hb :: (ld ++ tail)).length = 2 + ld.length + tail.length := by
    simp only [List.length_cons, List.length_append]
    omega
  have htl : tail.length ≤ digitsVal ld := by omega
  rw [decode_block hb ld tail h1 h2 h3 h4, drop_header hb ld tail h4,
    List.take_of_length_le htl]

/-- Witness for C3: `b"#15"` followed by only two payload bytes (declared
length 5) decodes to exactly those two bytes. -/
theorem decode_truncated_returns_available_witness :
    decode (35 :: 49 :: ([53] ++ [1, 2])) =
      Except.ok ((35 :: 49 :: ([53] ++ [1, 2])).drop (2 + (49 - 48))) :=
  decode_truncated_returns_available 49 [53] [1, 2]
    (by decide) (by decide) (by decide) (by decide) (by decide)

/-- C4: for every non-empty byte sequence whose first byte is not `b"#"`,
the decode step returns the sequence unchanged. -/
theorem decode_no_header_identity (c : Nat) (t : List Nat) (h : c ≠ 35) :
    decode (c :: t) = Except.ok (c :: t) := by
  have hstart : startsWithHash (c :: t) = false := by
    simp [startsWithHash, h]
  unfold decode
  rw [if_neg (by simp [hstart])]

/-- Witness for C4: the headerless bytes `b"PNG"` decode to themselves. -/
theorem decode_no_header_identity_witness :
    decode (80 :: [78, 71]) = Except.ok (80 :: [78, 71]) :=
  decode_no_header_identity 80 [78, 71] (by decide)

/-- C5: round-trip; for every payload `P` whose length `L` lies in
`{0, 1, 255, 65536}`, encoding `P` with a correct definite-length block
header and decoding returns exactly `P`. -/
theorem decode_encode_roundtrip :
    (∀ P : List Nat, P.length = 0 → decode (encodeBlock P) = Except.ok P) ∧
    (∀ P : List Nat, P.length = 1 → decode (encodeBlock P) = Except.ok P) ∧
    (∀ P : List Nat, P.length = 255 → decode (encodeBlock P) = Except.ok P) ∧
    (∀ P : List Nat, P.length = 65536 → decode (encodeBlock P) = Except.ok P) := by
  refine ⟨fun P hP => ?_, fun P hP => ?_, fun P hP => ?_, fun P hP => ?_⟩
  · exact decode_encodeBlock_of_digits 0 49 [48] (by decide) (by decide) (by decide)
      (by decide) (by decide) (by decide) (by decide) P hP
  · exact decode_encodeBlock_of_digits 1 49 [49] (by decide) (by decide) (by decide)
      (by decide) (by decide) (by decide) (by decide) P hP
  · exact decode_encodeBlock_of_digits 255 51 [50, 53, 53] (by decide) (by decide)
      (by decide) (by decide) (by decide) (by decide) (by decide) P hP
  · exact decode_encodeBlock_of_digits 65536 53 [54, 53, 53, 51, 54] (by decide)
      (by decide) (by decide) (by decide) (by decide) (by decide) (by decide) P hP

/-- Witness for C5: the singleton payload `[9]` survives the round trip. -/
theorem decode_encode_roundtrip_witness :
    decode (encodeBlock [9]) = Except.ok [9] :=
  decode_encode_roundtrip.2.1 [9] rfl

/-- C6: the empty response decodes to the empty byte sequence without any
error (`startswith` is false on empty bytes, so the raw data is returned). -/
theorem decode_empty : decode [] = Except.ok [] := rfl

/-- C7 counterexample: when the transport query raises, `IDNCheck` returns
the flag `0` rather than propagating any error; its result type carries no
error at all, and the erroring run is indistinguishable from a mismatching
identity reply. -/
theorem IDNCheck_swallows_error_counterexample :
    IDNCheck (Except.error VisaError.ioError) = 0 ∧
    IDNCheck (Except.ok "WRONG DEVICE" : Except VisaError String) = 0 ∧
    IDNCheck (Except.ok IDN_string : Except VisaError String) = 1 := by
  refine ⟨rfl, ?_, ?_⟩ <;> simp [IDNCheck, IDN_string]

/-- C7 (amended): `IDNCheck`'s bare `except:` silently coerces every
transport error into the failure flag `0`; no `ConnectionError` is
propagated to the caller. -/
theorem IDNCheck_error_returns_zero {ε : Type} (e : ε) :
    IDNCheck (Except.error e) = 0 := rfl

/-- C8: the decode step is a pure function of its argument; two runs on
equal input byte sequences produce equal outputs (the embedding is a total
function, and the Python code only reads `data` via slices, which copy). -/
theorem decode_deterministic (a b : List Nat) (h : a = b) :
    decode a = decode b := by rw [h]

/-- Witness for C8: two runs on the same concrete input agree. -/
theorem decode_deterministic_witness : decode [35] = decode [35] :=
  decode_deterministic [35] [35] rfl

/-- C9: whenever the decode step returns a result, that result is a
contiguous slice of the input, and its length never exceeds the input's
length. -/
theorem decode_result_is_slice (data out : List Nat)
    (h : decode data = Except.ok out) :
    (∃ i j : Nat, out = (data.take j).drop i) ∧ out.length ≤ data.length := by
  unfold decode at h
  by_cases hs : startsWithHash data = true
  · rw [if_pos hs] at h
    cases hint1 : pyInt (pySlice data 1 2) with
    | none =>
      rw [hint1] at h
      exact Except.noConfusion h
    | some hl =>
      simp only [hint1] at h
      cases hint2 : pyInt (pySlice data 2 (2 + hl)) with
      | none =>
        rw [hint2] at h
        exact Except.noConfusion h
      | some dl =>
        simp only [hint2] at h
        have hout : out = pySlice data (2 + hl) (2 + hl + dl) := by
          injection h with h'
          exact h'.symm
        constructor
        · exact ⟨pyClamp data.length (2 + hl), pyClamp data.length (2 + hl + dl),
            by rw [hout]; rfl⟩
        · rw [hout]
          exact pySlice_length_le data (2 + hl) (2 + hl + dl)
  · rw [if_neg hs] at h
    have hout : out = data := by
      injection h with h'
      exact h'.symm
    constructor
    · exact ⟨0, data.length, by rw [hout, List.take_length]; rfl⟩
    · rw [hout]

/-- Witness for C9: on the headerless input `[1, 2]` the result is the
slice `[1, 2]` of the input and no longer than it. -/
theorem decode_result_is_slice_witness :
    (∃ i j : Nat, ([1, 2] : List Nat) = (([1, 2] : List Nat).take j).drop i) ∧
      ([1, 2] : List Nat).length ≤ ([1, 2] : List Nat).length :=
  decode_result_is_slice [1, 2] [1, 2] (by decide)

/-- C10: the single byte `b"#"` (no digit-count byte follows) raises
`ValueError`, and every input whose digit-count byte is the ASCII digit `0`
raises `ValueError` from `int()` applied to the empty length slice, instead
of returning bytes. -/
theorem decode_empty_int_field_raises :
    decode [35] = Except.error PyError.valueError ∧
    ∀ t : List Nat, decode (35 :: 48 :: t) = Except.error PyError.valueError := by
  constructor
  · decide
  · intro t
    have hstart : startsWithHash (35 :: 48 :: t) = true := rfl
    have e1 : pySlice (35 :: 48 :: t) 1 2 = [48] := by
      have h := pySlice_ofNat (35 :: 48 :: t) 1 2
      push_cast at h
      rw [h]
      rfl
    have e2 : pyInt [48] = some ((0 : Nat) : Int) := by
      have h := pyInt_digits [48] (by simp) (by decide)
      simpa [digitsVal] using h
    have e3 : pySlice (35 :: 48 :: t) 2 (2 + ((0 : Nat) : Int)) = [] := by
      rw [show (2 + ((0 : Nat) : Int)) = ((2 : Nat) : Int) by norm_num,
        show (2 : Int) = ((2 : Nat) : Int) by norm_num, pySlice_ofNat]
      simp
    unfold decode
    rw [if_pos hstart]
    simp only [e1, e2, e3]
    rfl
